import Mathlib

/-! Verification of the Big Pic Solutions invoicing application.

The definitions below are a shallow embedding of `Invoicing/app.py`.
SQLite tables become Lean structures and lists, route handlers become pure
functions from a database state (plus request data) to a response together
with the new database state, SQL aggregates (`MAX`, `SUM`) and Python
truthiness (`x or 0`, `if not x`) are modelled explicitly, and Python
`round(x, 2)` (round half to even) is modelled on `ℚ`.  Date/time inputs
that the code obtains from `datetime.now()` are passed as explicit
parameters. -/

/-- A calendar date, modelling the ISO `YYYY-MM-DD` strings stored in the
sqlite `DATE` columns.  Ordering of well-formed ISO strings is the
lexicographic order on (year, month, day). -/
structure Date where
  year : Nat
  month : Nat
  day : Nat
  deriving DecidableEq

/-- SQLite comparison `d1 <= d2` of two ISO date strings. -/
def Date.le (a b : Date) : Bool :=
  a.year < b.year ||
    (a.year == b.year && (a.month < b.month || (a.month == b.month && a.day ≤ b.day)))

/-- Gregorian leap-year rule, used by date arithmetic. -/
def isLeapYear (y : Nat) : Bool :=
  (y % 4 == 0 && y % 100 != 0) || y % 400 == 0

/-- Number of days in a month of the Gregorian calendar. -/
def daysInMonth (y m : Nat) : Nat :=
  if m == 2 then (if isLeapYear y then 29 else 28)
  else if m == 4 || m == 6 || m == 9 || m == 11 then 30
  else 31

/-- The day before a given date. -/
def Date.prevDay (d : Date) : Date :=
  if d.day > 1 then { d with day := d.day - 1 }
  else if d.month > 1 then
    { year := d.year, month := d.month - 1, day := daysInMonth d.year (d.month - 1) }
  else { year := d.year - 1, month := 12, day := 31 }

/-- SQLite `date(now, -n days)`: step a date back by `n` days. -/
def Date.subDays (d : Date) : Nat → Date
  | 0 => d
  | n + 1 => (d.subDays n).prevDay

/-- Python `round` applied to a rational: round to the nearest integer,
ties going to the even integer. -/
def roundHalfEven (q : ℚ) : ℤ :=
  if q - (⌊q⌋ : ℚ) < 1 / 2 then ⌊q⌋
  else if 1 / 2 < q - (⌊q⌋ : ℚ) then ⌊q⌋ + 1
  else if ⌊q⌋ % 2 = 0 then ⌊q⌋ else ⌊q⌋ + 1

/-- Python `round(q, 2)`: round to two decimal places, ties to even. -/
def round2 (q : ℚ) : ℚ :=
  (roundHalfEven (q * 100) : ℚ) / 100

/-- A row of the `clients` table (columns used by the handlers). -/
structure Client where
  id : Nat
  name : String
  email : String
  phone : String
  address : String
  hourly_rate : ℚ
  notes : String
  deriving DecidableEq

/-- A row of the `jobs` table.  `invoice_number`, `invoice_status` and the
two invoice date columns are nullable (added by `migrate_db`). -/
structure Job where
  id : Nat
  client_id : Nat
  job_date : Date
  description : String
  hours : ℚ
  hourly_rate : ℚ
  total : ℚ
  notes : String
  status : String
  invoice_number : Option Nat
  invoice_status : Option String
  invoice_sent_date : Option Date
  invoice_paid_date : Option Date
  deriving DecidableEq

/-- The singleton `company_settings` row (id fixed to 1). -/
structure CompanySettings where
  company_name : String
  owner_name : String
  address : String
  phone : String
  email : String
  default_hourly_rate : ℚ
  deriving DecidableEq

/-- The singleton `goals` row (id fixed to 1). -/
structure Goals where
  yearly_net_goal : ℚ
  yearly_gross_goal : ℚ
  tax_rate : ℚ
  deriving DecidableEq

/-- The database state relevant to the job/invoice handlers: the `clients`
and `jobs` tables plus the next `AUTOINCREMENT` rowid of `jobs` (SQLite
`AUTOINCREMENT` ids are monotone and never reused). -/
structure DB where
  clients : List Client
  jobs : List Job
  next_job_id : Nat
  deriving DecidableEq

/-- The uniform error shape: HTTP status code plus the `error` message of
the JSON body. -/
structure ApiErr where
  code : Nat
  message : String
  deriving DecidableEq

/-- SQL `MAX(c)` over the values of a non-`NULL`-filtered column: `NULL`
(here `none`) when there are no non-`NULL` values. -/
def sqlMax (l : List Nat) : Option Nat :=
  l.foldr (fun a m => match m with | none => some a | some b => some (max a b)) none

/-- Python `x or 0` on an optional integer query result: `None` and `0`
are falsy and give `0`. -/
def pyOrZero : Option Nat → Nat
  | none => 0
  | some n => if n = 0 then 0 else n

/-- Python truthiness of a nullable integer column: `None` and `0` are
falsy. -/
def pyTruthyNat : Option Nat → Bool
  | none => false
  | some n => n != 0

/-- SQL `SUM(c)` of a non-nullable numeric column: `NULL` when the table
selection is empty, otherwise the sum. -/
def sqlSum (l : List ℚ) : Option ℚ :=
  match l with
  | [] => none
  | _ => some (l.foldr (fun a b => a + b) 0)

/-- Python `x or 0` on an optional numeric query result. -/
def pyOrZeroQ : Option ℚ → ℚ
  | none => 0
  | some q => if q = 0 then 0 else q

/-- `get_next_invoice_number` from `app.py`:
`(SELECT MAX(invoice_number) FROM jobs  or 0) + 1`. -/
def get_next_invoice_number (db : DB) : Nat :=
  pyOrZero (sqlMax (db.jobs.filterMap (fun j => j.invoice_number))) + 1

/-- The JSON body of `POST /api/jobs` and `PUT /api/jobs/id` after the
conversions the handler performs: `hours` and `hourly_rate` have been read
with defaults 0 and 140, `status` with default `draft`; `total` stands for
a caller-supplied `total` key, which the handlers never read. -/
structure JobInput where
  client_id : Nat
  job_date : Date
  description : String
  hours : ℚ
  hourly_rate : ℚ
  notes : String
  status : String
  total : Option ℚ
  deriving DecidableEq

/-- `add_job` (`POST /api/jobs`): recompute `total`, draw the next invoice
number and insert the row; respond with the new id and invoice number. -/
def add_job (db : DB) (input : JobInput) : Except ApiErr (Nat × Nat) × DB :=
  let hours := input.hours
  let hourly_rate := input.hourly_rate
  let total := hours * hourly_rate
  let invoice_number := get_next_invoice_number db
  let job : Job :=
    { id := db.next_job_id, client_id := input.client_id, job_date := input.job_date,
      description := input.description, hours := hours, hourly_rate := hourly_rate,
      total := total, notes := input.notes, status := "draft",
      invoice_number := some invoice_number, invoice_status := some "draft",
      invoice_sent_date := none, invoice_paid_date := none }
  (Except.ok (db.next_job_id, invoice_number),
    { db with jobs := db.jobs ++ [job], next_job_id := db.next_job_id + 1 })

/-- `update_job` (`PUT /api/jobs/id`): recompute `total` and overwrite the
core fields of every row matching the id; the invoice columns are not
touched. -/
def update_job (db : DB) (job_id : Nat) (input : JobInput) : Except ApiErr Unit × DB :=
  let hours := input.hours
  let hourly_rate := input.hourly_rate
  let total := hours * hourly_rate
  (Except.ok (),
    { db with jobs := db.jobs.map (fun j =>
        if j.id == job_id then
          { j with
            job_date := input.job_date, description := input.description,
            hours := hours, hourly_rate := hourly_rate, total := total,
            notes := input.notes, status := input.status }
        else j) })

/-- `delete_job` (`DELETE /api/jobs/id`): unconditional `DELETE FROM jobs
WHERE id = ?`, always answering success. -/
def delete_job (db : DB) (job_id : Nat) : Except ApiErr Unit × DB :=
  (Except.ok (), { db with jobs := db.jobs.filter (fun j => j.id != job_id) })

/-- The `UPDATE jobs SET invoice_number = ? WHERE id = ?` statement used by
the lazy assignment in `generate_pdf` and `update_invoice_status`. -/
def assignInvoiceNumber (jobs : List Job) (job_id : Nat) (n : Nat) : List Job :=
  jobs.map (fun j => if j.id == job_id then { j with invoice_number := some n } else j)

/-- `update_invoice_status` (`PUT /api/jobs/id/status`): validate the
requested status, 404 on a missing job, lazily assign an invoice number if
the row has none, then stamp or clear the sent/paid dates. -/
def update_invoice_status (db : DB) (job_id : Nat) (invoice_status : Option String)
    (today : Date) : Except ApiErr (Nat × String) × DB :=
  if invoice_status ∉ ([some "draft", some "sent", some "paid"] : List (Option String)) then
    (Except.error { code := 400, message := "Invalid status" }, db)
  else
    match db.jobs.find? (fun j => j.id == job_id) with
    | none => (Except.error { code := 404, message := "Job not found" }, db)
    | some job =>
      let new_status := invoice_status.getD "draft"
      let asn :=
        if pyTruthyNat job.invoice_number then (job.invoice_number.getD 0, db.jobs)
        else
          let n := get_next_invoice_number db
          (n, assignInvoiceNumber db.jobs job_id n)
      let invoice_number := asn.1
      let jobs1 := asn.2
      let jobs2 :=
        if new_status == "sent" then
          jobs1.map (fun j =>
            if j.id == job_id then
              { j with invoice_status := some new_status, invoice_sent_date := some today }
            else j)
        else if new_status == "paid" then
          jobs1.map (fun j =>
            if j.id == job_id then
              { j with invoice_status := some new_status, invoice_paid_date := some today }
            else j)
        else
          jobs1.map (fun j =>
            if j.id == job_id then
              { j with
                invoice_status := some new_status, invoice_sent_date := none,
                invoice_paid_date := none }
            else j)
      (Except.ok (invoice_number, new_status), { db with jobs := jobs2 })

/-- One flowable block of the reportlab story built by `generate_pdf`.
Purely decorative styling (fonts, colors, spacers) is not recorded; the
data content of each block is. -/
inductive Flowable where
  | headerTable (company_name : String) (title : String)
  | companyInfo (line : String)
  | detailsTable (invoice_id : String) (invoice_date : Date) (service_date : Date)
      (status : String)
  | sectionHeader (title : String)
  | textLine (text : String)
  | lineItemsTable (description : String) (hours : String) (rate : String) (amount : String)
      (note : Option String)
  | totalsTable (subtotal : String) (tax : String) (total_due : String)
  deriving DecidableEq

/-- One rendered page: the overlay is the watermark text drawn by the page
callback, if any. -/
structure Page where
  overlay : Option String
  deriving DecidableEq

/-- A built document: the story plus the rendered pages. -/
structure Document where
  story : List Flowable
  pages : List Page
  deriving DecidableEq

/-- The layout engine (`doc.build`): paginate the story into `n_pages`
pages; when a page callback is installed via `onFirstPage`/`onLaterPages`
it draws the watermark on every page. -/
def buildDocument (story : List Flowable) (watermark : Option String) (n_pages : Nat) :
    Document :=
  { story := story, pages := List.replicate n_pages { overlay := watermark } }

/-- Python `f"{n:04d}"`: decimal digits left-padded with zeros to width 4. -/
def pad4 (n : Nat) : String :=
  let s := toString n
  String.mk (List.replicate (4 - s.length) '0') ++ s

/-- Python `f"{x:.2f}"` on a rational: fixed two-decimal formatting,
rounding ties to even. -/
def formatFixed2 (q : ℚ) : String :=
  let c := roundHalfEven (q * 100)
  let sign := if c < 0 then "-" else ""
  let a := c.natAbs
  let cents := a % 100
  let centsStr := if cents < 10 then "0" ++ toString cents else toString cents
  sign ++ toString (a / 100) ++ "." ++ centsStr

/-- `generate_pdf` (`GET /api/jobs/id/pdf`): join the job with its client
(404 when either is missing), lazily assign an invoice number if the row
has none, assemble the story and build the document, adding the `PAID`
watermark callback exactly when `invoice_status` is `paid`.  `now` is the
render time and `n_pages` the page count the layout engine produces. -/
def generate_pdf (db : DB) (settings : Option CompanySettings) (job_id : Nat) (now : Date)
    (n_pages : Nat) : Except ApiErr (Document × String) × DB :=
  match db.jobs.find? (fun j => j.id == job_id) with
  | none => (Except.error { code := 404, message := "Job not found" }, db)
  | some job =>
    match db.clients.find? (fun c => c.id == job.client_id) with
    | none => (Except.error { code := 404, message := "Job not found" }, db)
    | some client =>
      let asn :=
        if pyTruthyNat job.invoice_number then (job.invoice_number.getD 0, db)
        else
          let n := get_next_invoice_number db
          (n, { db with jobs := assignInvoiceNumber db.jobs job_id n })
      let invoice_number := asn.1
      let db1 := asn.2
      let invoice_id := "INV-" ++ pad4 invoice_number
      let company_name :=
        match settings with
        | some s => s.company_name
        | none => "Big Pic Solutions"
      let companyLines : List Flowable :=
        match settings with
        | some s => [Flowable.companyInfo s.owner_name, Flowable.companyInfo s.address,
            Flowable.companyInfo (s.phone ++ "  •  " ++ s.email)]
        | none => []
      let status_str :=
        match job.invoice_status with
        | some s => if s != "" then s.toUpper else "DRAFT"
        | none => "DRAFT"
      let billTo : List Flowable :=
        [Flowable.textLine client.name]
          ++ (if client.address != "" then [Flowable.textLine client.address] else [])
          ++ (if client.email != "" then [Flowable.textLine client.email] else [])
          ++ (if client.phone != "" then [Flowable.textLine client.phone] else [])
      let items := Flowable.lineItemsTable job.description (formatFixed2 job.hours)
        ("$" ++ formatFixed2 job.hourly_rate ++ "/hr") ("$" ++ formatFixed2 job.total)
        (if job.notes != "" then some job.notes else none)
      let totals := Flowable.totalsTable ("$" ++ formatFixed2 job.total) "$0.00"
        ("$" ++ formatFixed2 job.total)
      let story := [Flowable.headerTable company_name "INVOICE"] ++ companyLines
        ++ [Flowable.detailsTable invoice_id now job.job_date status_str,
            Flowable.sectionHeader "BILL TO"]
        ++ billTo
        ++ [Flowable.sectionHeader "SERVICES", items, totals,
            Flowable.textLine "Thank you for your business!",
            Flowable.textLine (company_name ++ " • AI-Powered Technology Consulting")]
      let watermark := if job.invoice_status == some "paid" then some "PAID" else none
      let doc := buildDocument story watermark n_pages
      (Except.ok (doc, "Invoice-" ++ invoice_id ++ ".pdf"), db1)

/-- The JSON body of `GET /api/stats`. -/
structure Stats where
  total_revenue : ℚ
  total_hours : ℚ
  total_clients : Nat
  total_jobs : Nat
  year_revenue : ℚ
  month_revenue : ℚ
  week_revenue : ℚ
  deriving DecidableEq

/-- `get_stats` (`GET /api/stats`): overall sums and counts plus revenue
over the current calendar year (`strftime %Y`), the current calendar month
(`strftime %Y-%m`) and the trailing seven days
(`job_date >= date(now, -7 days)`). -/
def get_stats (db : DB) (now : Date) : Stats :=
  let total_revenue := pyOrZeroQ (sqlSum (db.jobs.map (fun j => j.total)))
  let total_hours := pyOrZeroQ (sqlSum (db.jobs.map (fun j => j.hours)))
  let year_revenue := pyOrZeroQ (sqlSum
    ((db.jobs.filter (fun j => j.job_date.year == now.year)).map (fun j => j.total)))
  let month_revenue := pyOrZeroQ (sqlSum
    ((db.jobs.filter (fun j =>
        j.job_date.year == now.year && j.job_date.month == now.month)).map (fun j => j.total)))
  let week_revenue := pyOrZeroQ (sqlSum
    ((db.jobs.filter (fun j => Date.le (now.subDays 7) j.job_date)).map (fun j => j.total)))
  { total_revenue := round2 total_revenue, total_hours := round2 total_hours,
    total_clients := db.clients.length, total_jobs := db.jobs.length,
    year_revenue := round2 year_revenue, month_revenue := round2 month_revenue,
    week_revenue := round2 week_revenue }

/-- `get_settings` (`GET /api/settings`): 404 when the singleton row is
absent. -/
def get_settings (settings : Option CompanySettings) : Except ApiErr CompanySettings :=
  match settings with
  | none => Except.error { code := 404, message := "Settings not found" }
  | some s => Except.ok s

/-- The JSON body of `GET /api/goals`. -/
structure GoalsResponse where
  yearly_gross : ℚ
  yearly_net : ℚ
  monthly_gross : ℚ
  monthly_net : ℚ
  weekly_gross : ℚ
  weekly_net : ℚ
  daily_gross : ℚ
  daily_net : ℚ
  tax_rate : ℚ
  deriving DecidableEq

/-- The fallback goals values hard-coded in `get_goals` for a missing
singleton row. -/
def defaultGoals : Goals :=
  { yearly_net_goal := 30000, yearly_gross_goal := 43500, tax_rate := 0.31 }

/-- `get_goals` (`GET /api/goals`): read the singleton row, falling back to
the hard-coded defaults, and derive the rounded breakdowns. -/
def get_goals (goals : Option Goals) : GoalsResponse :=
  let g := goals.getD defaultGoals
  let yearly_gross := g.yearly_gross_goal
  let yearly_net := g.yearly_net_goal
  { yearly_gross := round2 yearly_gross, yearly_net := round2 yearly_net,
    monthly_gross := round2 (yearly_gross / 12), monthly_net := round2 (yearly_net / 12),
    weekly_gross := round2 (yearly_gross / 52), weekly_net := round2 (yearly_net / 52),
    daily_gross := round2 (yearly_gross / 365), daily_net := round2 (yearly_net / 365),
    tax_rate := g.tax_rate }

/-- A serialized request against the job endpoints, used to reason about
sequences of operations. -/
inductive Op where
  | addJob (input : JobInput)
  | updateJob (job_id : Nat) (input : JobInput)
  | deleteJob (job_id : Nat)
  | genPdf (job_id : Nat) (now : Date) (n_pages : Nat)
  | setStatus (job_id : Nat) (invoice_status : Option String) (today : Date)
  deriving DecidableEq

/-- Whether an operation is the delete endpoint. -/
def Op.isDeleteOp : Op → Bool
  | .deleteJob _ => true
  | _ => false

/-- The database state after one serialized request. -/
def Op.apply (settings : Option CompanySettings) (db : DB) : Op → DB
  | .addJob input => (add_job db input).2
  | .updateJob job_id input => (update_job db job_id input).2
  | .deleteJob job_id => (delete_job db job_id).2
  | .genPdf job_id now n_pages => (generate_pdf db settings job_id now n_pages).2
  | .setStatus job_id st today => (update_invoice_status db job_id st today).2

/-- The invoice numbers an operation writes (`INSERT` with an invoice
number, or the lazy `UPDATE jobs SET invoice_number`), in the state `db`
the operation runs in: `add_job` always assigns one; `generate_pdf` and
`update_invoice_status` assign one exactly when they reach a job row whose
`invoice_number` is falsy. -/
def Op.assigns (db : DB) : Op → List Nat
  | .addJob _ => [get_next_invoice_number db]
  | .updateJob _ _ => []
  | .deleteJob _ => []
  | .genPdf job_id _ _ =>
    match db.jobs.find? (fun j => j.id == job_id) with
    | none => []
    | some job =>
      match db.clients.find? (fun c => c.id == job.client_id) with
      | none => []
      | some _ =>
        if pyTruthyNat job.invoice_number then [] else [get_next_invoice_number db]
  | .setStatus job_id st _ =>
    if st ∉ ([some "draft", some "sent", some "paid"] : List (Option String)) then []
    else
      match db.jobs.find? (fun j => j.id == job_id) with
      | none => []
      | some job =>
        if pyTruthyNat job.invoice_number then [] else [get_next_invoice_number db]

/-- Run a list of serialized requests. -/
def applyOps (settings : Option CompanySettings) : DB → List Op → DB
  | db, [] => db
  | db, op :: ops => applyOps settings (Op.apply settings db op) ops

/-- All invoice numbers assigned by a serialized run, in assignment
order. -/
def assignTrace (settings : Option CompanySettings) : DB → List Op → List Nat
  | _, [] => []
  | db, op :: ops => Op.assigns db op ++ assignTrace settings (Op.apply settings db op) ops

/-! Helper lemmas about the rounding model. -/

theorem roundHalfEven_ge_floor (q : ℚ) : ⌊q⌋ ≤ roundHalfEven q := by
  unfold roundHalfEven
  split_ifs <;> omega

theorem roundHalfEven_le_floor_add_one (q : ℚ) : roundHalfEven q ≤ ⌊q⌋ + 1 := by
  unfold roundHalfEven
  split_ifs <;> omega

theorem abs_roundHalfEven_sub_le (q : ℚ) : |(roundHalfEven q : ℚ) - q| ≤ 1 / 2 := by
  have h1 : (⌊q⌋ : ℚ) ≤ q := Int.floor_le q
  have h2 : q < (⌊q⌋ : ℚ) + 1 := Int.lt_floor_add_one q
  rw [abs_le]
  unfold roundHalfEven
  split_ifs with ha hb hc
  · constructor <;> linarith
  · push_cast
    constructor <;> linarith [not_lt.mp ha]
  · constructor <;> linarith [not_lt.mp ha, not_lt.mp hb]
  · push_cast
    constructor <;> linarith [not_lt.mp ha, not_lt.mp hb]

theorem roundHalfEven_eq_floor_imp {q : ℚ} (h : roundHalfEven q = ⌊q⌋) :
    q - (⌊q⌋ : ℚ) ≤ 1 / 2 ∧ (q - (⌊q⌋ : ℚ) = 1 / 2 → ⌊q⌋ % 2 = 0) := by
  unfold roundHalfEven at h
  split_ifs at h with ha hb hc
  · exact ⟨le_of_lt ha, fun hf => absurd (hf ▸ ha) (lt_irrefl _)⟩
  · exact absurd h (by omega)
  · exact ⟨not_lt.mp hb, fun _ => hc⟩
  · exact absurd h (by omega)

theorem roundHalfEven_eq_floor_add_one_imp {q : ℚ} (h : roundHalfEven q = ⌊q⌋ + 1) :
    1 / 2 ≤ q - (⌊q⌋ : ℚ) ∧ (q - (⌊q⌋ : ℚ) = 1 / 2 → ⌊q⌋ % 2 ≠ 0) := by
  unfold roundHalfEven at h
  split_ifs at h with ha hb hc
  · exact absurd h (by omega)
  · exact ⟨le_of_lt hb, fun hf => absurd (hf ▸ hb) (lt_irrefl _)⟩
  · exact absurd h (by omega)
  · exact ⟨not_lt.mp ha, fun _ => hc⟩

theorem roundHalfEven_mono {x y : ℚ} (h : x ≤ y) : roundHalfEven x ≤ roundHalfEven y := by
  rcases lt_or_eq_of_le (Int.floor_mono h) with hlt | heq
  · calc roundHalfEven x ≤ ⌊x⌋ + 1 := roundHalfEven_le_floor_add_one x
      _ ≤ ⌊y⌋ := hlt
      _ ≤ roundHalfEven y := roundHalfEven_ge_floor y
  · by_contra hcon
    push_neg at hcon
    have hgy := roundHalfEven_ge_floor y
    have hlx := roundHalfEven_le_floor_add_one x
    have hgx := roundHalfEven_ge_floor x
    have hyn : roundHalfEven y = ⌊y⌋ := by omega
    have hxn : roundHalfEven x = ⌊x⌋ + 1 := by omega
    obtain ⟨hy1, hy2⟩ := roundHalfEven_eq_floor_imp hyn
    obtain ⟨hx1, hx2⟩ := roundHalfEven_eq_floor_add_one_imp hxn
    have hff : x - (⌊x⌋ : ℚ) ≤ y - (⌊y⌋ : ℚ) := by
      rw [heq]; linarith
    have hfx : x - (⌊x⌋ : ℚ) = 1 / 2 := by linarith
    have hfy : y - (⌊y⌋ : ℚ) = 1 / 2 := by linarith
    have hpx := hx2 hfx
    have hpy := hy2 hfy
    omega

theorem round2_mono {x y : ℚ} (h : x ≤ y) : round2 x ≤ round2 y := by
  unfold round2
  have hm : roundHalfEven (x * 100) ≤ roundHalfEven (y * 100) := by
    apply roundHalfEven_mono
    nlinarith
  have hc : (roundHalfEven (x * 100) : ℚ) ≤ (roundHalfEven (y * 100) : ℚ) := by
    exact_mod_cast hm
  linarith

theorem abs_round2_sub_le (q : ℚ) : |round2 q - q| ≤ 1 / 200 := by
  have h := abs_roundHalfEven_sub_le (q * 100)
  rw [abs_le] at h
  rw [abs_le]
  unfold round2
  constructor
  · linarith [h.1]
  · linarith [h.2]

/-! Helper lemmas about the SQL aggregate models. -/

theorem sqlMax_eq_none_iff {l : List Nat} : sqlMax l = none ↔ l = [] := by
  cases l with
  | nil => simp [sqlMax]
  | cons a t =>
    simp only [sqlMax, List.foldr]
    constructor
    · intro h
      split at h <;> simp_all
    · intro h
      exact absurd h (List.cons_ne_nil a t)

theorem sqlMax_cons (a : Nat) (t : List Nat) :
    sqlMax (a :: t) = some (match sqlMax t with | none => a | some b => max a b) := by
  cases htail : sqlMax t with
  | none =>
    unfold sqlMax at htail ⊢
    rw [List.foldr_cons, htail]
  | some b =>
    unfold sqlMax at htail ⊢
    rw [List.foldr_cons, htail]

theorem sqlMax_mem {l : List Nat} {m : Nat} (h : sqlMax l = some m) : m ∈ l := by
  induction l generalizing m with
  | nil => simp [sqlMax] at h
  | cons a t ih =>
    rcases htail : sqlMax t with _ | b
    · rw [sqlMax_cons, htail] at h
      simp only [Option.some.injEq] at h
      subst h
      exact List.mem_cons_self a t
    · rw [sqlMax_cons, htail] at h
      simp only [Option.some.injEq] at h
      rcases max_choice a b with hc | hc
      · rw [hc] at h
        subst h
        exact List.mem_cons_self a t
      · rw [hc] at h
        subst h
        exact List.mem_cons_of_mem a (ih htail)

theorem sqlMax_le {l : List Nat} {m : Nat} (h : sqlMax l = some m) : ∀ x ∈ l, x ≤ m := by
  induction l generalizing m with
  | nil => simp
  | cons a t ih =>
    intro x hx
    rcases List.mem_cons.mp hx with hx | hx
    · subst hx
      rcases htail : sqlMax t with _ | b
      · rw [sqlMax_cons, htail] at h
        simp only [Option.some.injEq] at h
        omega
      · rw [sqlMax_cons, htail] at h
        simp only [Option.some.injEq] at h
        calc x ≤ max x b := le_max_left _ _
          _ = m := h
    · rcases htail : sqlMax t with _ | b
      · rw [sqlMax_eq_none_iff] at htail
        subst htail
        simp at hx
      · rw [sqlMax_cons, htail] at h
        simp only [Option.some.injEq] at h
        calc x ≤ b := ih htail x hx
          _ ≤ max a b := le_max_right _ _
          _ = m := h

theorem sqlMax_eq_foldr {l : List Nat} (h : l ≠ []) : sqlMax l = some (l.foldr max 0) := by
  induction l with
  | nil => exact absurd rfl h
  | cons a t ih =>
    rw [sqlMax_cons]
    cases t with
    | nil => simp [sqlMax]
    | cons b u =>
      rw [ih (List.cons_ne_nil b u)]
      simp [List.foldr]

theorem pyOrZeroQ_sqlSum (l : List ℚ) : pyOrZeroQ (sqlSum l) = l.sum := by
  cases l with
  | nil => simp [sqlSum, pyOrZeroQ]
  | cons a t =>
    have hsum : (a :: t).foldr (fun x y => x + y) 0 = (a :: t).sum := rfl
    simp only [sqlSum, pyOrZeroQ, hsum]
    split <;> simp_all

theorem sum_map_filter_le (p : Job → Bool) (l : List Job)
    (h : ∀ j ∈ l, 0 ≤ j.total) :
    ((l.filter p).map (fun j => j.total)).sum ≤ (l.map (fun j => j.total)).sum := by
  induction l with
  | nil => simp
  | cons a t ih =>
    have ha : 0 ≤ a.total := h a (List.mem_cons_self a t)
    have ht : ∀ j ∈ t, 0 ≤ j.total := fun j hj => h j (List.mem_cons_of_mem a hj)
    rw [List.filter_cons]
    by_cases hp : p a
    · rw [if_pos hp]
      simp only [List.map_cons, List.sum_cons]
      linarith [ih ht]
    · rw [if_neg hp]
      simp only [List.map_cons, List.sum_cons]
      linarith [ih ht]

/-! Helper lemmas about id-conditional row updates. -/

theorem find?_map_update (l : List Job) (job_id : Nat) (f : Job → Job) (j : Job)
    (hf : ∀ x, (f x).id = x.id)
    (h : l.find? (fun x => x.id == job_id) = some j) :
    (l.map (fun x => if x.id == job_id then f x else x)).find? (fun x => x.id == job_id)
      = some (f j) := by
  induction l with
  | nil => simp at h
  | cons a t ih =>
    rw [List.find?_cons] at h
    simp only [List.map_cons]
    rw [List.find?_cons]
    by_cases hp : (a.id == job_id) = true
    · rw [hp] at h
      injection h with h
      subst h
      rw [if_pos hp]
      have hfa : ((f a).id == job_id) = true := by
        rw [hf a]
        exact hp
      rw [hfa]
    · rw [Bool.not_eq_true] at hp
      rw [hp] at h
      rw [if_neg (by simp [hp])]
      rw [hp]
      exact ih h

theorem mem_map_if_update {l : List Job} {j' : Job} (job_id : Nat) (g : Job → Job)
    (h : j' ∈ l.map (fun x => if x.id == job_id then g x else x)) :
    ∃ x ∈ l, (x.id = job_id ∧ j' = g x) ∨ (x.id ≠ job_id ∧ j' = x) := by
  obtain ⟨x, hx, hfx⟩ := List.mem_map.mp h
  by_cases hp : (x.id == job_id) = true
  · rw [if_pos hp] at hfx
    exact ⟨x, hx, Or.inl ⟨beq_iff_eq.mp hp, hfx.symm⟩⟩
  · rw [if_neg hp] at hfx
    refine ⟨x, hx, Or.inr ⟨?_, hfx.symm⟩⟩
    intro he
    exact hp (beq_iff_eq.mpr he)

/-! The invoice-numbering invariant and its preservation. -/

/-- Invariant tying a jobs table to the count `k` of invoice numbers handed
out so far along a serialized run: every assigned number lies in `1..k`,
and `k` itself is assigned to some row when positive. -/
def InvNums (jobs : List Job) (k : Nat) : Prop :=
  (∀ j ∈ jobs, ∀ n, j.invoice_number = some n → 1 ≤ n ∧ n ≤ k) ∧
  (1 ≤ k → ∃ j ∈ jobs, j.invoice_number = some k)

theorem get_next_eq_of_invNums {db : DB} {k : Nat} (h : InvNums db.jobs k) :
    get_next_invoice_number db = k + 1 := by
  obtain ⟨hub, hex⟩ := h
  unfold get_next_invoice_number
  rcases Nat.eq_zero_or_pos k with hk | hk
  · subst hk
    have hempty : db.jobs.filterMap (fun j => j.invoice_number) = [] := by
      rw [List.filterMap_eq_nil_iff]
      intro j hj
      cases hn : j.invoice_number with
      | none => rfl
      | some n =>
        have := hub j hj n hn
        omega
    rw [hempty]
    rfl
  · obtain ⟨j, hj, hjn⟩ := hex hk
    have hkmem : k ∈ db.jobs.filterMap (fun j => j.invoice_number) :=
      List.mem_filterMap.mpr ⟨j, hj, hjn⟩
    have hall : ∀ x ∈ db.jobs.filterMap (fun j => j.invoice_number), x ≤ k := by
      intro x hx
      obtain ⟨j', hj', hx'⟩ := List.mem_filterMap.mp hx
      exact (hub j' hj' x hx').2
    rcases hm : sqlMax (db.jobs.filterMap (fun j => j.invoice_number)) with _ | m
    · rw [sqlMax_eq_none_iff] at hm
      rw [hm] at hkmem
      simp at hkmem
    · have h1 : m ≤ k := hall m (sqlMax_mem hm)
      have h2 : k ≤ m := sqlMax_le hm k hkmem
      have hmk : m = k := le_antisymm h1 h2
      subst hmk
      rw [hm]
      simp only [pyOrZero]
      rw [if_neg (by omega)]

theorem invNums_map {jobs : List Job} {k : Nat} (f : Job → Job)
    (hf : ∀ j, (f j).invoice_number = j.invoice_number) (h : InvNums jobs k) :
    InvNums (jobs.map f) k := by
  obtain ⟨hub, hex⟩ := h
  constructor
  · intro j' hj' n hn
    obtain ⟨j, hj, hfj⟩ := List.mem_map.mp hj'
    refine hub j hj n ?_
    rw [← hf j, hfj]
    exact hn
  · intro hk
    obtain ⟨j, hj, hjn⟩ := hex hk
    exact ⟨f j, List.mem_map_of_mem f hj, (hf j).trans hjn⟩

theorem invNums_map_if {jobs : List Job} {k : Nat} (job_id : Nat) (g : Job → Job)
    (hg : ∀ j, (g j).invoice_number = j.invoice_number) (h : InvNums jobs k) :
    InvNums (jobs.map (fun j => if j.id == job_id then g j else j)) k := by
  apply invNums_map _ _ h
  intro j
  by_cases hp : (j.id == job_id) = true
  · rw [if_pos hp]
    exact hg j
  · rw [if_neg hp]

theorem invNums_append_new {jobs : List Job} {k : Nat} (h : InvNums jobs k) (j : Job)
    (hj : j.invoice_number = some (k + 1)) : InvNums (jobs ++ [j]) (k + 1) := by
  obtain ⟨hub, hex⟩ := h
  constructor
  · intro x hx n hn
    rcases List.mem_append.mp hx with hx | hx
    · have := hub x hx n hn
      omega
    · rw [List.mem_singleton.mp hx] at hn
      rw [hj] at hn
      injection hn with hn
      omega
  · intro _
    exact ⟨j, List.mem_append.mpr (Or.inr (List.mem_singleton.mpr rfl)), hj⟩

theorem invNums_assign {jobs : List Job} {k : Nat} (h : InvNums jobs k) (job_id : Nat)
    (hex : ∃ j ∈ jobs, j.id = job_id) :
    InvNums (assignInvoiceNumber jobs job_id (k + 1)) (k + 1) := by
  obtain ⟨hub, hwit⟩ := h
  constructor
  · intro j' hj' n hn
    unfold assignInvoiceNumber at hj'
    obtain ⟨x, hx, hcase⟩ := mem_map_if_update job_id _ hj'
    rcases hcase with ⟨hxid, hxe⟩ | ⟨hxid, hxe⟩
    · rw [hxe] at hn
      have hn' : some (k + 1) = some n := hn
      injection hn' with hn'
      omega
    · rw [hxe] at hn
      have := hub x hx n hn
      omega
  · intro _
    obtain ⟨j0, hj0, hid⟩ := hex
    refine ⟨{ j0 with invoice_number := some (k + 1) }, ?_, rfl⟩
    have hbeq : (j0.id == job_id) = true := beq_iff_eq.mpr hid
    unfold assignInvoiceNumber
    apply List.mem_map.mpr
    refine ⟨j0, hj0, ?_⟩
    simp only [if_pos hbeq]

theorem invNums_step (settings : Option CompanySettings) (db : DB) (k : Nat) (op : Op)
    (h : InvNums db.jobs k) (hnd : op.isDeleteOp = false) :
    InvNums (Op.apply settings db op).jobs (k + (Op.assigns db op).length) ∧
    Op.assigns db op = List.range' (k + 1) (Op.assigns db op).length := by
  have hnext : get_next_invoice_number db = k + 1 := get_next_eq_of_invNums h
  cases op with
  | addJob input =>
    constructor
    · simp only [Op.apply, Op.assigns, add_job, List.length_cons, List.length_nil]
      rw [hnext]
      exact invNums_append_new h _ rfl
    · simp only [Op.assigns, hnext, List.length_cons, List.length_nil]
      rfl
  | updateJob job_id input =>
    constructor
    · simp only [Op.apply, Op.assigns, update_job, List.length_nil, Nat.add_zero]
      exact invNums_map_if job_id _ (fun j => rfl) h
    · rfl
  | deleteJob job_id =>
    simp [Op.isDeleteOp] at hnd
  | genPdf job_id now n_pages =>
    rcases hjob : db.jobs.find? (fun j => j.id == job_id) with _ | job
    · constructor
      · simp only [Op.apply, Op.assigns, generate_pdf, hjob, List.length_nil, Nat.add_zero]
        exact h
      · simp [Op.assigns, hjob]
    · rcases hcl : db.clients.find? (fun c => c.id == job.client_id) with _ | client
      · constructor
        · simp only [Op.apply, Op.assigns, generate_pdf, hjob, hcl, List.length_nil,
            Nat.add_zero]
          exact h
        · simp [Op.assigns, hjob, hcl]
      · by_cases htr : pyTruthyNat job.invoice_number = true
        · constructor
          · simp only [Op.apply, Op.assigns, generate_pdf, hjob, hcl, htr, if_true,
              List.length_nil, Nat.add_zero]
            exact h
          · simp [Op.assigns, hjob, hcl, htr]
        · rw [Bool.not_eq_true] at htr
          have hbeq : (job.id == job_id) = true := by
            have hb := @List.find?_some Job (fun j => j.id == job_id) job db.jobs hjob
            simpa using hb
          have hid : job.id = job_id := beq_iff_eq.mp hbeq
          have hex : ∃ j ∈ db.jobs, j.id = job_id :=
            ⟨job, List.mem_of_find?_eq_some hjob, hid⟩
          constructor
          · simp only [Op.apply, Op.assigns, generate_pdf, hjob, hcl, htr, Bool.false_eq_true,
              if_false, List.length_cons, List.length_nil]
            rw [hnext]
            exact invNums_assign h job_id hex
          · simp only [Op.assigns, hjob, hcl, htr, Bool.false_eq_true, if_false, hnext,
              List.length_cons, List.length_nil]
            rfl
  | setStatus job_id st today =>
    by_cases hv : st ∈ ([some "draft", some "sent", some "paid"] : List (Option String))
    · rcases hjob : db.jobs.find? (fun j => j.id == job_id) with _ | job
      · constructor
        · simp only [Op.apply, Op.assigns, update_invoice_status, if_neg (not_not_intro hv),
            hjob, List.length_nil, Nat.add_zero]
          exact h
        · simp [Op.assigns, if_neg (not_not_intro hv), hjob]
      · by_cases htr : pyTruthyNat job.invoice_number = true
        · constructor
          · simp only [Op.apply, Op.assigns, update_invoice_status, if_neg (not_not_intro hv),
              hjob, htr, if_true, List.length_nil, Nat.add_zero]
            split
            · exact invNums_map_if job_id _ (fun j => rfl) h
            · split
              · exact invNums_map_if job_id _ (fun j => rfl) h
              · exact invNums_map_if job_id _ (fun j => rfl) h
          · simp [Op.assigns, if_neg (not_not_intro hv), hjob, htr]
        · rw [Bool.not_eq_true] at htr
          have hbeq : (job.id == job_id) = true := by
            have hb := @List.find?_some Job (fun j => j.id == job_id) job db.jobs hjob
            simpa using hb
          have hid : job.id = job_id := beq_iff_eq.mp hbeq
          have hex : ∃ j ∈ db.jobs, j.id = job_id :=
            ⟨job, List.mem_of_find?_eq_some hjob, hid⟩
          constructor
          · simp only [Op.apply, Op.assigns, update_invoice_status, if_neg (not_not_intro hv),
              hjob, htr, Bool.false_eq_true, if_false, List.length_cons, List.length_nil]
            rw [hnext]
            split
            · exact invNums_map_if job_id _ (fun j => rfl) (invNums_assign h job_id hex)
            · split
              · exact invNums_map_if job_id _ (fun j => rfl) (invNums_assign h job_id hex)
              · exact invNums_map_if job_id _ (fun j => rfl) (invNums_assign h job_id hex)
          · simp only [Op.assigns, if_neg (not_not_intro hv), hjob, htr, Bool.false_eq_true,
              if_false, hnext, List.length_cons, List.length_nil]
            rfl
    · have ha : Op.assigns db (Op.setStatus job_id st today) = [] := by
        simp only [Op.assigns]
        rw [if_pos hv]
      constructor
      · rw [ha]
        simp only [Op.apply, update_invoice_status]
        rw [if_pos hv]
        simpa using h
      · rw [ha]
        rfl

theorem assignTrace_eq_range' (settings : Option CompanySettings) (ops : List Op) :
    ∀ (db : DB) (k : Nat), InvNums db.jobs k → (∀ op ∈ ops, op.isDeleteOp = false) →
    assignTrace settings db ops
      = List.range' (k + 1) (assignTrace settings db ops).length := by
  induction ops with
  | nil =>
    intro db k hinv hnd
    rfl
  | cons op ops ih =>
    intro db k hinv hnd
    have hop := hnd op (List.mem_cons_self _ _)
    have hstep := invNums_step settings db k op hinv hop
    have htail := ih (Op.apply settings db op) (k + (Op.assigns db op).length) hstep.1
      (fun o ho => hnd o (List.mem_cons_of_mem _ ho))
    show Op.assigns db op ++ assignTrace settings (Op.apply settings db op) ops
      = List.range' (k + 1)
          (Op.assigns db op ++ assignTrace settings (Op.apply settings db op) ops).length
    rw [List.length_append]
    rw [htail, hstep.2]
    rw [List.length_range', List.length_range']
    have harg : k + (Op.assigns db op).length + 1
        = k + 1 + 1 * (Op.assigns db op).length := by ring
    rw [harg, List.range'_append]
    rw [Nat.add_comm ((assignTrace settings (Op.apply settings db op) ops).length)
      ((Op.assigns db op).length)]

theorem stable_in_map_if {jobs : List Job} {j j' : Job} {n : Nat} (job_id : Nat)
    (g : Job → Job)
    (huniq : ∀ x ∈ jobs, x.id = j.id → x = j)
    (hj : j ∈ jobs) (hn : j.invoice_number = some n)
    (hj' : j' ∈ jobs.map (fun x => if x.id == job_id then g x else x))
    (hid : j'.id = j.id)
    (hg_inv : ∀ x, (g x).invoice_number = x.invoice_number)
    (hg_id : ∀ x, (g x).id = x.id) : j'.invoice_number = some n := by
  obtain ⟨x, hx, hcase⟩ := mem_map_if_update job_id _ hj'
  rcases hcase with ⟨hxid, hxe⟩ | ⟨hxid, hxe⟩
  · have hid' : x.id = j.id := by
      rw [hxe, hg_id x] at hid
      exact hid
    have hxj : x = j := huniq x hx hid'
    rw [hxe, hg_inv x, hxj]
    exact hn
  · have hxj : x = j := huniq x hx (by rw [hxe] at hid; exact hid)
    rw [hxe, hxj]
    exact hn

theorem invoice_number_stable (settings : Option CompanySettings) (db : DB) (op : Op)
    (j j' : Job) (n : Nat)
    (hnodup : (db.jobs.map (fun x => x.id)).Nodup)
    (hfresh : ∀ x ∈ db.jobs, x.id ≠ db.next_job_id)
    (hj : j ∈ db.jobs) (hn : j.invoice_number = some n) (hpos : n ≠ 0)
    (hj' : j' ∈ (Op.apply settings db op).jobs) (hid : j'.id = j.id) :
    j'.invoice_number = some n := by
  have huniq : ∀ x ∈ db.jobs, x.id = j.id → x = j := by
    intro x hx hxe
    exact List.inj_on_of_nodup_map hnodup hx hj hxe
  have hjtruthy : pyTruthyNat j.invoice_number = true := by
    rw [hn]
    simp [pyTruthyNat, hpos]
  cases op with
  | addJob input =>
    simp only [Op.apply, add_job] at hj'
    rcases List.mem_append.mp hj' with hm | hm
    · rw [huniq j' hm hid]
      exact hn
    · have hjid : j.id = db.next_job_id := by
        rw [← hid, List.mem_singleton.mp hm]
      exact absurd hjid (hfresh j hj)
  | updateJob job_id input =>
    simp only [Op.apply, update_job] at hj'
    exact stable_in_map_if job_id _ huniq hj hn hj' hid (fun x => rfl) (fun x => rfl)
  | deleteJob job_id =>
    simp only [Op.apply, delete_job] at hj'
    have hm : j' ∈ db.jobs := List.mem_of_mem_filter hj'
    rw [huniq j' hm hid]
    exact hn
  | genPdf job_id now n_pages =>
    rcases hjob : db.jobs.find? (fun x => x.id == job_id) with _ | job0
    · simp only [Op.apply, generate_pdf, hjob] at hj'
      rw [huniq j' hj' hid]
      exact hn
    · rcases hcl : db.clients.find? (fun c => c.id == job0.client_id) with _ | client
      · simp only [Op.apply, generate_pdf, hjob, hcl] at hj'
        rw [huniq j' hj' hid]
        exact hn
      · by_cases htr : pyTruthyNat job0.invoice_number = true
        · simp only [Op.apply, generate_pdf, hjob, hcl, htr, if_true] at hj'
          rw [huniq j' hj' hid]
          exact hn
        · rw [Bool.not_eq_true] at htr
          simp only [Op.apply, generate_pdf, hjob, hcl, htr, Bool.false_eq_true, if_false]
            at hj'
          unfold assignInvoiceNumber at hj'
          obtain ⟨x, hx, hcase⟩ := mem_map_if_update job_id _ hj'
          have hbeq : (job0.id == job_id) = true := by
            have hb := @List.find?_some Job (fun x => x.id == job_id) job0 db.jobs hjob
            simpa using hb
          have hj0id : job0.id = job_id := beq_iff_eq.mp hbeq
          rcases hcase with ⟨hxid, hxe⟩ | ⟨hxid, hxe⟩
          · have hid' : x.id = j.id := by
              rw [hxe] at hid
              exact hid
            have hxj : x = j := huniq x hx hid'
            have hj0j : job0 = j := huniq job0 (List.mem_of_find?_eq_some hjob)
              (by rw [hj0id, ← hxid, hxj])
            rw [hj0j, hjtruthy] at htr
            simp at htr
          · have hxj : x = j := huniq x hx (by rw [hxe] at hid; exact hid)
            rw [hxe, hxj]
            exact hn
  | setStatus job_id st today =>
    by_cases hv : st ∈ ([some "draft", some "sent", some "paid"] : List (Option String))
    · rcases hjob : db.jobs.find? (fun x => x.id == job_id) with _ | job0
      · simp only [Op.apply, update_invoice_status, if_neg (not_not_intro hv), hjob] at hj'
        rw [huniq j' hj' hid]
        exact hn
      · have hbeq : (job0.id == job_id) = true := by
          have hb := @List.find?_some Job (fun x => x.id == job_id) job0 db.jobs hjob
          simpa using hb
        have hj0id : job0.id = job_id := beq_iff_eq.mp hbeq
        by_cases htr : pyTruthyNat job0.invoice_number = true
        · simp only [Op.apply, update_invoice_status, if_neg (not_not_intro hv), hjob, htr,
            if_true] at hj'
          split at hj'
          · exact stable_in_map_if job_id _ huniq hj hn hj' hid (fun x => rfl) (fun x => rfl)
          · split at hj'
            · exact stable_in_map_if job_id _ huniq hj hn hj' hid (fun x => rfl) (fun x => rfl)
            · exact stable_in_map_if job_id _ huniq hj hn hj' hid (fun x => rfl) (fun x => rfl)
        · rw [Bool.not_eq_true] at htr
          simp only [Op.apply, update_invoice_status, if_neg (not_not_intro hv), hjob, htr,
            Bool.false_eq_true, if_false] at hj'
          have hjne : j.id ≠ job_id := by
            intro he
            have hj0j : job0 = j := huniq job0 (List.mem_of_find?_eq_some hjob)
              (by rw [hj0id, he])
            rw [hj0j, hjtruthy] at htr
            simp at htr
          have huniq2 : ∀ x ∈ assignInvoiceNumber db.jobs job_id (get_next_invoice_number db),
              x.id = j.id → x = j := by
            intro x hx hxe
            unfold assignInvoiceNumber at hx
            obtain ⟨y, hy, hcase⟩ := mem_map_if_update job_id _ hx
            rcases hcase with ⟨hyid, hye⟩ | ⟨hyid, hye⟩
            · exfalso
              apply hjne
              rw [← hxe, hye]
              exact hyid
            · rw [hye]
              exact huniq y hy (by rw [← hye]; exact hxe)
          have hjmem2 : j ∈ assignInvoiceNumber db.jobs job_id (get_next_invoice_number db) := by
            unfold assignInvoiceNumber
            apply List.mem_map.mpr
            refine ⟨j, hj, ?_⟩
            rw [if_neg (by simp [hjne])]
          split at hj'
          · exact stable_in_map_if job_id _ huniq2 hjmem2 hn hj' hid (fun x => rfl) (fun x => rfl)
          · split at hj'
            · exact stable_in_map_if job_id _ huniq2 hjmem2 hn hj' hid (fun x => rfl) (fun x => rfl)
            · exact stable_in_map_if job_id _ huniq2 hjmem2 hn hj' hid (fun x => rfl) (fun x => rfl)
    · simp only [Op.apply, update_invoice_status, if_pos hv] at hj'
      rw [huniq j' hj' hid]
      exact hn

/-! Claim theorems. -/

/-- C1 (amended): along any serialized run of job-endpoint requests that
starts from a database with no jobs and contains no delete request, the
invoice numbers assigned (at creation, at first PDF render, or at first
status transition) are exactly 1, 2, 3, … in assignment order — strictly
increasing from 1 with no duplicates; and independently, one request applied
to a state with distinct job ids and a fresh autoincrement id never changes
the previously assigned nonzero invoice number of a surviving job row.
The unrestricted claim is false: deleting the job holding the maximal
invoice number makes the next assignment reuse that number (see the
counterexample). -/
theorem c1_invoice_numbering (settings : Option CompanySettings) :
    (∀ (cs : List Client) (ops : List Op), (∀ op ∈ ops, op.isDeleteOp = false) →
      assignTrace settings { clients := cs, jobs := [], next_job_id := 1 } ops
        = List.range' 1
            (assignTrace settings { clients := cs, jobs := [], next_job_id := 1 } ops).length) ∧
    (∀ (db : DB) (op : Op) (j j' : Job) (n : Nat),
      (db.jobs.map (fun x => x.id)).Nodup →
      (∀ x ∈ db.jobs, x.id ≠ db.next_job_id) →
      j ∈ db.jobs → j.invoice_number = some n → n ≠ 0 →
      j' ∈ (Op.apply settings db op).jobs → j'.id = j.id →
      j'.invoice_number = some n) := by
  constructor
  · intro cs ops hnd
    have h0 : InvNums ({ clients := cs, jobs := [], next_job_id := 1 } : DB).jobs 0 := by
      constructor
      · intro j hj
        simp at hj
      · intro hk
        omega
    have hr := assignTrace_eq_range' settings ops _ 0 h0 hnd
    simpa using hr
  · intro db op j j' n h1 h2 h3 h4 h5 h6 h7
    exact invoice_number_stable settings db op j j' n h1 h2 h3 h4 h5 h6 h7

/-- Request payload used in the concrete C1 runs. -/
def exInput : JobInput :=
  { client_id := 1, job_date := { year := 2026, month := 1, day := 10 },
    description := "work", hours := 1, hourly_rate := 100, notes := "", status := "draft",
    total := none }

/-- C1 counterexample: create two jobs (invoice numbers 1 and 2), delete the
second, create a third — the third job is assigned invoice number 2 again,
so the assigned numbers in assignment order are [1, 2, 2]: not strictly
increasing, and number 2 is reused by a later operation. -/
theorem c1_invoice_numbering_counterexample :
    assignTrace none { clients := [], jobs := [], next_job_id := 1 }
      [Op.addJob exInput, Op.addJob exInput, Op.deleteJob 2, Op.addJob exInput]
      = [1, 2, 2] ∧
    ¬ List.Pairwise (fun a b => a < b)
        (assignTrace none { clients := [], jobs := [], next_job_id := 1 }
          [Op.addJob exInput, Op.addJob exInput, Op.deleteJob 2, Op.addJob exInput]) := by
  have h1 : assignTrace none { clients := [], jobs := [], next_job_id := 1 }
      [Op.addJob exInput, Op.addJob exInput, Op.deleteJob 2, Op.addJob exInput]
      = [1, 2, 2] := by decide
  refine ⟨h1, ?_⟩
  rw [h1]
  intro hp
  have h2 := List.pairwise_cons.mp hp
  have h3 := List.pairwise_cons.mp h2.2
  have h4 := h3.1 2 (List.mem_singleton.mpr rfl)
  omega

/-- A one-job database used to instantiate the C1 stability statement. -/
def c1WitnessJob : Job :=
  { id := 1, client_id := 1, job_date := { year := 2026, month := 1, day := 10 },
    description := "work", hours := 1, hourly_rate := 100, total := 100, notes := "",
    status := "draft", invoice_number := some 3, invoice_status := some "draft",
    invoice_sent_date := none, invoice_paid_date := none }

/-- The C1 database holding `c1WitnessJob`. -/
def c1WitnessDb : DB := { clients := [], jobs := [c1WitnessJob], next_job_id := 2 }

/-- `c1WitnessJob` after a status transition to `paid`. -/
def c1WitnessJob2 : Job :=
  { c1WitnessJob with
    invoice_status := some "paid",
    invoice_paid_date := some { year := 2026, month := 3, day := 3 } }

/-- C1 witness: a delete-free run of two job creations is assigned exactly
[1, 2], and a status transition on a job holding invoice number 3 leaves
that number unchanged. -/
theorem c1_invoice_numbering_witness :
    assignTrace none { clients := [], jobs := [], next_job_id := 1 }
      [Op.addJob exInput, Op.addJob exInput]
      = List.range' 1 (assignTrace none { clients := [], jobs := [], next_job_id := 1 }
          [Op.addJob exInput, Op.addJob exInput]).length ∧
    c1WitnessJob2.invoice_number = some 3 := by
  constructor
  · exact (c1_invoice_numbering none).1 [] [Op.addJob exInput, Op.addJob exInput] (by decide)
  · exact (c1_invoice_numbering none).2 c1WitnessDb
      (Op.setStatus 1 (some "paid") { year := 2026, month := 3, day := 3 })
      c1WitnessJob c1WitnessJob2 3 (by decide) (by decide) (by decide) (by decide)
      (by decide) (by decide) (by decide)

/-- C2: `get_next_invoice_number` is a total function (it never fails), and
it returns the maximum assigned invoice number over all jobs plus one, or 1
when no job has an invoice number assigned yet. -/
theorem c2_next_invoice_number (db : DB) :
    (db.jobs.filterMap (fun j => j.invoice_number) ≠ [] →
      get_next_invoice_number db
        = (db.jobs.filterMap (fun j => j.invoice_number)).foldr max 0 + 1) ∧
    ((∀ j ∈ db.jobs, j.invoice_number = none) → get_next_invoice_number db = 1) := by
  constructor
  · intro hne
    unfold get_next_invoice_number
    rw [sqlMax_eq_foldr hne]
    simp only [pyOrZero]
    split
    · omega
    · rfl
  · intro hnone
    unfold get_next_invoice_number
    have hempty : db.jobs.filterMap (fun j => j.invoice_number) = [] := by
      rw [List.filterMap_eq_nil_iff]
      intro j hj
      exact hnone j hj
    rw [hempty]
    rfl

/-- C2 witness: on a database whose only assigned invoice number is 3 the
next number is 4; on an empty database it is 1. -/
theorem c2_next_invoice_number_witness :
    get_next_invoice_number c1WitnessDb = 4 ∧
    get_next_invoice_number { clients := [], jobs := [], next_job_id := 1 } = 1 := by
  constructor
  · have h := (c2_next_invoice_number c1WitnessDb).1 (by decide)
    rw [h]
    decide
  · exact (c2_next_invoice_number _).2 (by decide)

/-- C3: for an existing job, a transition to `sent` stamps
`invoice_sent_date` with the current date and leaves `invoice_paid_date`
unchanged; a transition to `paid` stamps `invoice_paid_date` and leaves
`invoice_sent_date` unchanged; a transition to `draft` clears both date
fields.  In each case the stored `invoice_status` becomes the requested
value. -/
theorem c3_status_dates (db : DB) (job_id : Nat) (today : Date) (job : Job)
    (hfind : db.jobs.find? (fun j => j.id == job_id) = some job) :
    (∃ j', (update_invoice_status db job_id (some "sent") today).2.jobs.find?
        (fun j => j.id == job_id) = some j' ∧
      j'.invoice_status = some "sent" ∧ j'.invoice_sent_date = some today ∧
      j'.invoice_paid_date = job.invoice_paid_date) ∧
    (∃ j', (update_invoice_status db job_id (some "paid") today).2.jobs.find?
        (fun j => j.id == job_id) = some j' ∧
      j'.invoice_status = some "paid" ∧ j'.invoice_paid_date = some today ∧
      j'.invoice_sent_date = job.invoice_sent_date) ∧
    (∃ j', (update_invoice_status db job_id (some "draft") today).2.jobs.find?
        (fun j => j.id == job_id) = some j' ∧
      j'.invoice_status = some "draft" ∧ j'.invoice_sent_date = none ∧
      j'.invoice_paid_date = none) := by
  refine ⟨?_, ?_, ?_⟩
  · have hvalid : ¬ ((some "sent" : Option String)
        ∉ ([some "draft", some "sent", some "paid"] : List (Option String))) := by decide
    simp only [update_invoice_status, if_neg hvalid, hfind, Option.getD_some]
    by_cases htr : pyTruthyNat job.invoice_number = true
    · simp only [htr, if_true]
      rw [if_pos (by decide : (("sent" == "sent") = true))]
      exact ⟨_, find?_map_update db.jobs job_id _ job (fun x => rfl) hfind, rfl, rfl, rfl⟩
    · rw [Bool.not_eq_true] at htr
      simp only [htr, Bool.false_eq_true, if_false]
      rw [if_pos (by decide : (("sent" == "sent") = true))]
      have h1 := find?_map_update db.jobs job_id
        (fun x => { x with invoice_number := some (get_next_invoice_number db) }) job
        (fun x => rfl) hfind
      exact ⟨_, find?_map_update _ job_id _ _ (fun x => rfl) h1, rfl, rfl, rfl⟩
  · have hvalid : ¬ ((some "paid" : Option String)
        ∉ ([some "draft", some "sent", some "paid"] : List (Option String))) := by decide
    simp only [update_invoice_status, if_neg hvalid, hfind, Option.getD_some]
    by_cases htr : pyTruthyNat job.invoice_number = true
    · simp only [htr, if_true]
      rw [if_neg (by decide : ¬ (("paid" == "sent") = true))]
      rw [if_pos (by decide : (("paid" == "paid") = true))]
      exact ⟨_, find?_map_update db.jobs job_id _ job (fun x => rfl) hfind, rfl, rfl, rfl⟩
    · rw [Bool.not_eq_true] at htr
      simp only [htr, Bool.false_eq_true, if_false]
      rw [if_neg (by decide : ¬ (("paid" == "sent") = true))]
      rw [if_pos (by decide : (("paid" == "paid") = true))]
      have h1 := find?_map_update db.jobs job_id
        (fun x => { x with invoice_number := some (get_next_invoice_number db) }) job
        (fun x => rfl) hfind
      exact ⟨_, find?_map_update _ job_id _ _ (fun x => rfl) h1, rfl, rfl, rfl⟩
  · have hvalid : ¬ ((some "draft" : Option String)
        ∉ ([some "draft", some "sent", some "paid"] : List (Option String))) := by decide
    simp only [update_invoice_status, if_neg hvalid, hfind, Option.getD_some]
    by_cases htr : pyTruthyNat job.invoice_number = true
    · simp only [htr, if_true]
      rw [if_neg (by decide : ¬ (("draft" == "sent") = true))]
      rw [if_neg (by decide : ¬ (("draft" == "paid") = true))]
      exact ⟨_, find?_map_update db.jobs job_id _ job (fun x => rfl) hfind, rfl, rfl, rfl⟩
    · rw [Bool.not_eq_true] at htr
      simp only [htr, Bool.false_eq_true, if_false]
      rw [if_neg (by decide : ¬ (("draft" == "sent") = true))]
      rw [if_neg (by decide : ¬ (("draft" == "paid") = true))]
      have h1 := find?_map_update db.jobs job_id
        (fun x => { x with invoice_number := some (get_next_invoice_number db) }) job
        (fun x => rfl) hfind
      exact ⟨_, find?_map_update _ job_id _ _ (fun x => rfl) h1, rfl, rfl, rfl⟩

/-- A job with both invoice dates set, to instantiate C3. -/
def c3Job : Job :=
  { id := 7, client_id := 2, job_date := { year := 2026, month := 2, day := 2 },
    description := "net setup", hours := 2, hourly_rate := 140, total := 280, notes := "",
    status := "draft", invoice_number := some 1, invoice_status := some "sent",
    invoice_sent_date := some { year := 2026, month := 3, day := 1 },
    invoice_paid_date := none }

/-- The C3 database holding `c3Job`. -/
def c3Db : DB := { clients := [], jobs := [c3Job], next_job_id := 8 }

/-- C3 witness: transitioning `c3Job` to `paid` on 2026-04-01 stamps the
paid date with that day and keeps the previously stored sent date. -/
theorem c3_status_dates_witness :
    ((update_invoice_status c3Db 7 (some "paid")
        { year := 2026, month := 4, day := 1 }).2.jobs.find?
      (fun j => j.id == 7)).map
        (fun j' => (j'.invoice_status, j'.invoice_paid_date, j'.invoice_sent_date))
      = some (some "paid", some { year := 2026, month := 4, day := 1 },
          c3Job.invoice_sent_date) := by
  obtain ⟨j', hf, h1, h2, h3⟩ :=
    (c3_status_dates c3Db 7 { year := 2026, month := 4, day := 1 } c3Job (by decide)).2.1
  rw [hf]
  simp [h1, h2, h3]

/-- C4: job creation and job update always store `total = hours ×
hourly_rate`, recomputed at write time from the caller's `hours` and
`hourly_rate`; a caller-supplied `total` value is ignored entirely — the
results do not depend on it at all. -/
theorem c4_total_recomputed (db : DB) (input : JobInput) (job_id : Nat) (t : Option ℚ)
    (hh : 0 ≤ input.hours) (hr : 0 ≤ input.hourly_rate) :
    ((add_job db input).2.jobs = db.jobs
        ++ [{ id := db.next_job_id, client_id := input.client_id,
              job_date := input.job_date, description := input.description,
              hours := input.hours, hourly_rate := input.hourly_rate,
              total := input.hours * input.hourly_rate, notes := input.notes,
              status := "draft", invoice_number := some (get_next_invoice_number db),
              invoice_status := some "draft", invoice_sent_date := none,
              invoice_paid_date := none }]) ∧
    (∀ j' ∈ (update_job db job_id input).2.jobs, j'.id = job_id →
      j'.total = input.hours * input.hourly_rate) ∧
    add_job db { input with total := t } = add_job db input ∧
    update_job db job_id { input with total := t } = update_job db job_id input := by
  refine ⟨rfl, ?_, rfl, rfl⟩
  intro j' hj' hid
  simp only [update_job] at hj'
  obtain ⟨x, hx, hcase⟩ := mem_map_if_update job_id _ hj'
  rcases hcase with ⟨hxid, hxe⟩ | ⟨hxid, hxe⟩
  · rw [hxe]
  · exfalso
    apply hxid
    rw [hxe] at hid
    exact hid

/-- C4 witness: adding a job with hours 2 and rate 140 while the caller
also supplies total 999 stores total 280 and ignores the bogus total. -/
theorem c4_total_recomputed_witness :
    ((add_job { clients := [], jobs := [], next_job_id := 1 }
        { exInput with hours := 2, hourly_rate := 140, total := some 999 }).2.jobs.map
      (fun j => j.total)) = [2 * 140] := by
  have h := (c4_total_recomputed { clients := [], jobs := [], next_job_id := 1 }
    { exInput with hours := 2, hourly_rate := 140, total := some 999 } 1 none
    (by norm_num [exInput]) (by norm_num [exInput])).1
  rw [h]
  simp [exInput]

/-- C5: for every requested status outside draft/sent/paid — including a
missing value — the status endpoint answers 400 `Invalid status` and the
whole database, hence every job record with its invoice fields, is left
unchanged. -/
theorem c5_invalid_status (db : DB) (job_id : Nat) (st : Option String) (today : Date)
    (h : st ∉ ([some "draft", some "sent", some "paid"] : List (Option String))) :
    update_invoice_status db job_id st today
      = (Except.error { code := 400, message := "Invalid status" }, db) := by
  unfold update_invoice_status
  rw [if_pos h]

/-- C5 witness: requesting status `done` on the one-job database leaves it
unchanged and yields the 400 error. -/
theorem c5_invalid_status_witness :
    update_invoice_status c3Db 7 (some "done") { year := 2026, month := 4, day := 1 }
      = (Except.error { code := 400, message := "Invalid status" }, c3Db) :=
  c5_invalid_status c3Db 7 (some "done") { year := 2026, month := 4, day := 1 } (by decide)

/-- C9: the delete endpoint always answers success, for every id including
ones absent from the database, and deleting an absent id leaves the
database unchanged — a silent no-op, not an error. -/
theorem c9_delete_job (db : DB) (job_id : Nat) :
    (delete_job db job_id).1 = Except.ok () ∧
    ((∀ j ∈ db.jobs, j.id ≠ job_id) → (delete_job db job_id).2 = db) := by
  constructor
  · rfl
  · intro habs
    unfold delete_job
    have hf : db.jobs.filter (fun j => j.id != job_id) = db.jobs := by
      rw [List.filter_eq_self]
      intro a ha
      simp [habs a ha]
    rw [hf]

/-- C9 witness: deleting absent id 99 from the one-job database answers
success and changes nothing. -/
theorem c9_delete_job_witness :
    (delete_job c3Db 99).1 = Except.ok () ∧ (delete_job c3Db 99).2 = c3Db :=
  ⟨(c9_delete_job c3Db 99).1, (c9_delete_job c3Db 99).2 (by decide)⟩

/-- C7: rendering the invoice PDF of an existing job (with its client
present) succeeds, and the `PAID` watermark overlay is applied to every
page of the built document exactly when the job's `invoice_status` is
`paid`; with status `draft` or `sent` every page carries no overlay. -/
theorem c7_watermark (db : DB) (settings : Option CompanySettings) (job_id : Nat)
    (now : Date) (n_pages : Nat) (hn : 0 < n_pages) (job : Job) (client : Client)
    (hfind : db.jobs.find? (fun j => j.id == job_id) = some job)
    (hcl : db.clients.find? (fun c => c.id == job.client_id) = some client) :
    (∀ doc fname, (generate_pdf db settings job_id now n_pages).1 = Except.ok (doc, fname) →
      ((∀ p ∈ doc.pages, p.overlay = some "PAID") ↔ job.invoice_status = some "paid")) ∧
    (job.invoice_status = some "paid" →
      (generate_pdf db settings job_id now n_pages).1.toOption.map (fun r => r.1.pages)
        = some (List.replicate n_pages ({ overlay := some "PAID" } : Page))) ∧
    (job.invoice_status = some "draft" ∨ job.invoice_status = some "sent" →
      (generate_pdf db settings job_id now n_pages).1.toOption.map (fun r => r.1.pages)
        = some (List.replicate n_pages ({ overlay := none } : Page))) := by
  by_cases hp : (job.invoice_status == some "paid") = true
  · have hps : job.invoice_status = some "paid" := beq_iff_eq.mp hp
    simp only [generate_pdf, hfind, hcl, buildDocument, hp, if_true]
    refine ⟨?_, ?_, ?_⟩
    · intro doc fname heq
      have hdoc : doc.pages = List.replicate n_pages ({ overlay := some "PAID" } : Page) := by
        injection heq with h
        rw [Prod.mk.injEq] at h
        rw [← h.1]
      constructor
      · intro _
        exact hps
      · intro _ p hpmem
        rw [hdoc] at hpmem
        rw [List.eq_of_mem_replicate hpmem]
    · intro _
      rfl
    · intro hds
      rcases hds with hd | hd <;> (rw [hd] at hps; exact absurd hps (by decide))
  · rw [Bool.not_eq_true] at hp
    have hps : ¬ job.invoice_status = some "paid" := by
      intro he
      rw [he] at hp
      simp at hp
    simp only [generate_pdf, hfind, hcl, buildDocument, hp, Bool.false_eq_true, if_false]
    refine ⟨?_, ?_, ?_⟩
    · intro doc fname heq
      have hdoc : doc.pages = List.replicate n_pages ({ overlay := none } : Page) := by
        injection heq with h
        rw [Prod.mk.injEq] at h
        rw [← h.1]
      constructor
      · intro hall
        exfalso
        have hmem : ({ overlay := none } : Page) ∈ doc.pages := by
          rw [hdoc]
          exact List.mem_replicate.mpr ⟨by omega, rfl⟩
        have hbad := hall _ hmem
        simp at hbad
      · intro he
        exact absurd he hps
    · intro he
      exact absurd he hps
    · intro _
      rfl

/-- Client row used by the C7 renders. -/
def c7Client : Client :=
  { id := 4, name := "Acme", email := "acme@example.com", phone := "555-1234",
    address := "1 Main St", hourly_rate := 100, notes := "" }

/-- A paid job for the C7 render. -/
def c7JobPaid : Job :=
  { id := 1, client_id := 4, job_date := { year := 2026, month := 4, day := 20 },
    description := "support", hours := 3, hourly_rate := 100, total := 300, notes := "",
    status := "draft", invoice_number := some 1, invoice_status := some "paid",
    invoice_sent_date := none, invoice_paid_date := some { year := 2026, month := 4, day := 30 } }

/-- The same job with status `sent` instead. -/
def c7JobSent : Job :=
  { c7JobPaid with invoice_status := some "sent", invoice_paid_date := none }

/-- Database holding the paid job. -/
def c7DbPaid : DB := { clients := [c7Client], jobs := [c7JobPaid], next_job_id := 2 }

/-- Database holding the sent job. -/
def c7DbSent : DB := { clients := [c7Client], jobs := [c7JobSent], next_job_id := 2 }

/-- C7 witness: a two-page render of the paid job carries the `PAID`
overlay on both pages; the same render with status `sent` carries none. -/
theorem c7_watermark_witness :
    (generate_pdf c7DbPaid none 1 { year := 2026, month := 5, day := 1 } 2).1.toOption.map
        (fun r => r.1.pages)
      = some (List.replicate 2 ({ overlay := some "PAID" } : Page)) ∧
    (generate_pdf c7DbSent none 1 { year := 2026, month := 5, day := 1 } 2).1.toOption.map
        (fun r => r.1.pages)
      = some (List.replicate 2 ({ overlay := none } : Page)) :=
  ⟨(c7_watermark c7DbPaid none 1 { year := 2026, month := 5, day := 1 } 2 (by decide)
      c7JobPaid c7Client (by decide) (by decide)).2.1 rfl,
    (c7_watermark c7DbSent none 1 { year := 2026, month := 5, day := 1 } 2 (by decide)
      c7JobSent c7Client (by decide) (by decide)).2.2 (Or.inr rfl)⟩

theorem round2_div_mul_bound (y m : ℚ) (hm : 0 < m) :
    |round2 (y / m) * m - y| ≤ m / 200 := by
  have h := abs_round2_sub_le (y / m)
  have hm' : m ≠ 0 := ne_of_gt hm
  have heq : round2 (y / m) * m - y = m * (round2 (y / m) - y / m) := by
    field_simp
  rw [heq, abs_mul, abs_of_pos hm]
  calc m * |round2 (y / m) - y / m| ≤ m * (1 / 200) := by
        exact mul_le_mul_of_nonneg_left h (le_of_lt hm)
    _ = m / 200 := by ring

/-- C8: the goals endpoint returns the monthly, weekly and daily
breakdowns as the yearly gross and net figures divided by 12, 52 and 365,
each rounded to 2 decimal places, and passes `tax_rate` through
unmodified; consequently monthly × 12, weekly × 52 and daily × 365 each
recover the corresponding yearly figure within the accumulated rounding
error (at most half a cent per unit, i.e. `m / 200` for multiplier `m`). -/
theorem c8_goals_breakdown (g : Goals) :
    (get_goals (some g)).monthly_gross = round2 (g.yearly_gross_goal / 12) ∧
    (get_goals (some g)).monthly_net = round2 (g.yearly_net_goal / 12) ∧
    (get_goals (some g)).weekly_gross = round2 (g.yearly_gross_goal / 52) ∧
    (get_goals (some g)).weekly_net = round2 (g.yearly_net_goal / 52) ∧
    (get_goals (some g)).daily_gross = round2 (g.yearly_gross_goal / 365) ∧
    (get_goals (some g)).daily_net = round2 (g.yearly_net_goal / 365) ∧
    (get_goals (some g)).tax_rate = g.tax_rate ∧
    |(get_goals (some g)).monthly_net * 12 - g.yearly_net_goal| ≤ 12 / 200 ∧
    |(get_goals (some g)).weekly_net * 52 - g.yearly_net_goal| ≤ 52 / 200 ∧
    |(get_goals (some g)).daily_net * 365 - g.yearly_net_goal| ≤ 365 / 200 ∧
    |(get_goals (some g)).monthly_gross * 12 - g.yearly_gross_goal| ≤ 12 / 200 ∧
    |(get_goals (some g)).weekly_gross * 52 - g.yearly_gross_goal| ≤ 52 / 200 ∧
    |(get_goals (some g)).daily_gross * 365 - g.yearly_gross_goal| ≤ 365 / 200 := by
  refine ⟨rfl, rfl, rfl, rfl, rfl, rfl, rfl, ?_, ?_, ?_, ?_, ?_, ?_⟩
  · exact round2_div_mul_bound g.yearly_net_goal 12 (by norm_num)
  · exact round2_div_mul_bound g.yearly_net_goal 52 (by norm_num)
  · exact round2_div_mul_bound g.yearly_net_goal 365 (by norm_num)
  · exact round2_div_mul_bound g.yearly_gross_goal 12 (by norm_num)
  · exact round2_div_mul_bound g.yearly_gross_goal 52 (by norm_num)
  · exact round2_div_mul_bound g.yearly_gross_goal 365 (by norm_num)

/-- C10: the goals endpoint never fails — when the singleton row is absent
it computes the very same response as for the built-in defaults
(yearly net 30000.00, yearly gross 43500.00, tax rate 0.31), rather than
returning a 404; the settings lookup, by contrast, answers 404
`Settings not found` when its row is absent. -/
theorem c10_goals_defaults :
    get_goals none = get_goals (some defaultGoals) ∧
    (get_goals none).yearly_net = 30000 ∧
    (get_goals none).yearly_gross = 43500 ∧
    (get_goals none).monthly_net = 2500 ∧
    (get_goals none).tax_rate = 0.31 ∧
    get_settings none = Except.error { code := 404, message := "Settings not found" } := by
  refine ⟨rfl, ?_, ?_, ?_, rfl, rfl⟩
  · norm_num [get_goals, defaultGoals, Option.getD, round2, roundHalfEven]
  · norm_num [get_goals, defaultGoals, Option.getD, round2, roundHalfEven]
  · norm_num [get_goals, defaultGoals, Option.getD, round2, roundHalfEven]

/-- C6 (amended): for every database state, `total_revenue` equals the sum
of all job totals rounded to 2 decimal places (0 when there are no jobs);
and whenever every job's `job_date` falls within the current calendar year
and every job total is nonnegative, `year_revenue` equals `total_revenue`
and both `month_revenue` and `week_revenue` are bounded by `year_revenue`.
The claimed chain `week_revenue ≤ month_revenue` is false in the code: the
week window is the trailing seven days, which can cross a month boundary
(see the counterexample). -/
theorem c6_stats (db : DB) (now : Date) :
    (get_stats db now).total_revenue = round2 ((db.jobs.map (fun j => j.total)).sum) ∧
    ((∀ j ∈ db.jobs, j.job_date.year = now.year) → (∀ j ∈ db.jobs, 0 ≤ j.total) →
      (get_stats db now).year_revenue = (get_stats db now).total_revenue ∧
      (get_stats db now).month_revenue ≤ (get_stats db now).year_revenue ∧
      (get_stats db now).week_revenue ≤ (get_stats db now).year_revenue) := by
  constructor
  · simp only [get_stats, pyOrZeroQ_sqlSum]
  · intro hyear hpos
    have hyearfilter : db.jobs.filter (fun j => j.job_date.year == now.year) = db.jobs := by
      rw [List.filter_eq_self]
      intro a ha
      exact beq_iff_eq.mpr (hyear a ha)
    simp only [get_stats, pyOrZeroQ_sqlSum, hyearfilter]
    refine ⟨trivial, ?_, ?_⟩
    · exact round2_mono (sum_map_filter_le _ _ hpos)
    · exact round2_mono (sum_map_filter_le _ _ hpos)

/-- The job dated 2026-02-28 for the C6 counterexample. -/
def c6Job : Job :=
  { id := 1, client_id := 1, job_date := { year := 2026, month := 2, day := 28 },
    description := "w", hours := 1, hourly_rate := 100, total := 100, notes := "",
    status := "draft", invoice_number := some 1, invoice_status := some "draft",
    invoice_sent_date := none, invoice_paid_date := none }

/-- The C6 counterexample database. -/
def c6Db : DB := { clients := [], jobs := [c6Job], next_job_id := 2 }

/-- The C6 counterexample request date: 2026-03-03. -/
def c6Now : Date := { year := 2026, month := 3, day := 3 }

/-- C6 counterexample: one job of nonnegative total 100 dated 2026-02-28,
queried on 2026-03-03 — every job is in the current calendar year, yet the
job lies in the trailing 7-day window (cutoff 2026-02-24) while not in the
current calendar month, so `week_revenue = 100 > 0 = month_revenue`,
refuting `week_revenue ≤ month_revenue`. -/
theorem c6_stats_counterexample :
    (∀ j ∈ c6Db.jobs, j.job_date.year = c6Now.year) ∧
    (∀ j ∈ c6Db.jobs, 0 ≤ j.total) ∧
    ¬ ((get_stats c6Db c6Now).week_revenue ≤ (get_stats c6Db c6Now).month_revenue) := by
  refine ⟨by decide, ?_, ?_⟩
  · intro j hj
    rw [List.mem_singleton.mp hj]
    show (0 : ℚ) ≤ 100
    norm_num
  · norm_num [get_stats, sqlSum, pyOrZeroQ, c6Db, c6Job, c6Now, Date.subDays, Date.prevDay,
      daysInMonth, isLeapYear, Date.le, round2, roundHalfEven]

/-- A job dated in an earlier year with a negative total, so that the
mixed database below is a state where `total_revenue` differs from
`year_revenue`. -/
def c6JobOld : Job :=
  { id := 2, client_id := 1, job_date := { year := 2025, month := 7, day := 15 },
    description := "refund", hours := -1, hourly_rate := 50, total := -50, notes := "",
    status := "draft", invoice_number := some 2, invoice_status := some "draft",
    invoice_sent_date := none, invoice_paid_date := none }

/-- A database mixing years and a negative total, where the unconditional
`total_revenue` equation has content beyond `year_revenue`. -/
def c6DbMixed : DB := { clients := [], jobs := [c6Job, c6JobOld], next_job_id := 3 }

/-- C6 witness: the unconditional `total_revenue` equation instantiated on
a database mixing two calendar years and a negative total, and the amended
inequalities instantiated on the one-job database, with their hypotheses
discharged concretely. -/
theorem c6_stats_witness :
    (get_stats c6DbMixed c6Now).total_revenue
      = round2 ((c6DbMixed.jobs.map (fun j => j.total)).sum) ∧
    (get_stats c6Db c6Now).month_revenue ≤ (get_stats c6Db c6Now).year_revenue ∧
    (get_stats c6Db c6Now).week_revenue ≤ (get_stats c6Db c6Now).year_revenue := by
  have h1 := (c6_stats c6DbMixed c6Now).1
  have h2 := (c6_stats c6Db c6Now).2 (by decide)
    (by
      intro j hj
      rw [List.mem_singleton.mp hj]
      show (0 : ℚ) ≤ 100
      norm_num)
  exact ⟨h1, h2.2.1, h2.2.2⟩
